import Mathlib

/-
Verification of the gdb-heap heap-usage model against its source.

Shallow embedding of the repository's Python code:

* `heap/__init__.py`: `Category`, `Usage`, `UsageSet.set_addr_category`
* `heap/glibc.py`: `MChunkPtr` flag logic, `MallocState.iter_sbrk_chunks`,
  `MallocState.iter_mmap_chunks`
* `heap/cpython.py`: `PyPoolPtr.iter_usage` and its block walks
* `heap/query.py` / `heap/parser.py`: query AST evaluation and grammar actions
* `heap/history.py`: `Diff` set differences

Python integers are arbitrary precision and are modelled as `Int`.
The package is Python 2 (`print` statements, `long`, `xrange` throughout),
so `None` compares below every integer, and `if visited:` tests set
non-emptiness, not just non-`None`-ness; both behaviours are modelled
exactly.  Reads of inferior memory can raise `RuntimeError` and are
modelled as `Option`-valued memory functions.  Python `while` loops are
modelled with an explicit fuel parameter.
-/

/- ===== heap/__init__.py : Category and Usage ===== -/

/-- `Category(domain, kind, detail)`, a namedtuple (`heap/__init__.py`).
`detail` defaults to `None`. -/
structure Category where
  domain : String
  kind : String
  detail : Option String
deriving DecidableEq

/-- `Usage`: information about an in-use area of memory
(`heap/__init__.py`).  Fields `start, size, category, level, hd, obj`;
`category`, `level`, `hd`, `obj` default to `None`.  The opaque wrapped
pointer `obj` is modelled by its inferior address. -/
structure Usage where
  start : Int
  size : Int
  category : Option Category
  level : Option Int
  hd : Option String
  obj : Option Int
deriving DecidableEq

/-- Result value of `UsageSet.set_addr_category`: the Python code returns
`True`, `False`, or falls off the end (returning `None`). -/
inductive PyRet where
  | pyTrue
  | pyFalse
  | pyNone
deriving DecidableEq

/-- Python truthiness of a `set_addr_category` result: only `True` is truthy. -/
def PyRet.truthy : PyRet → Bool
  | .pyTrue => true
  | .pyFalse => false
  | .pyNone => false

/-- Python 2 evaluation of `level <= u.level` where `u.level` may be `None`:
in CPython 2, `None` compares below every integer, so `level <= None` is
`False` for every int `level`. -/
def py_le_opt (level : Int) (ulevel : Option Int) : Bool :=
  match ulevel with
  | none => false
  | some v => level ≤ v

/-- `UsageSet.__init__` keeps the given `usage_list`; the
`usage_by_address` dict is derived from it (last duplicate start wins,
as with Python dict construction). -/
structure UsageSet where
  usage_list : List Usage
deriving DecidableEq

/-- First element of the list whose `start` equals `addr` (helper for the
dict view; applied to the reversed list so that the last occurrence wins,
matching `dict([(int(u.start), u) for u in usage_list])`). -/
def find_by_start : List Usage → Int → Option Usage
  | [], _ => none
  | u :: rest, a => if u.start = a then some u else find_by_start rest a

/-- Lookup in `self.usage_by_address`: the last usage in `usage_list`
whose start address is `addr`. -/
def usage_by_address (s : UsageSet) (addr : Int) : Option Usage :=
  find_by_start s.usage_list.reverse addr

/-- Replace the first element with the given start address (helper,
applied to the reversed list: the dict holds the last occurrence, and
`set_addr_category` mutates that object in place). -/
def update_by_start : List Usage → Int → (Usage → Usage) → List Usage
  | [], _, _ => []
  | u :: rest, a, f => if u.start = a then f u :: rest else u :: update_by_start rest a f

/-- In-place mutation of the usage object found via `usage_by_address`:
the last element of `usage_list` with start `addr` is replaced by its
image under `f`. -/
def set_usage (s : UsageSet) (addr : Int) (f : Usage → Usage) : UsageSet :=
  ⟨(update_by_start s.usage_list.reverse addr f).reverse⟩

/-- The part of `UsageSet.set_addr_category` after the `visited`
bookkeeping (`heap/__init__.py` lines 358-374): look `addr` up in
`usage_by_address`; bail out returning `False` when
`level <= u.level` (Python 2 comparison, `None` below every int);
otherwise record `category` and `level` on the found usage and return
`True`; when `addr` is absent fall off the end, returning `None`. -/
def set_addr_category_found (s : UsageSet) (addr : Int) (category : Category)
    (level : Int) (visited : Option (List Int)) :
    PyRet × UsageSet × Option (List Int) :=
  match usage_by_address s addr with
  | some u =>
    if py_le_opt level u.level then
      (.pyFalse, s, visited)
    else
      (.pyTrue,
       set_usage s addr (fun u2 => { u2 with category := some category, level := some level }),
       visited)
  | none => (.pyNone, s, visited)

/-- `UsageSet.set_addr_category(addr, category, level, visited)`
(`heap/__init__.py` lines 347-374).  The guard is `if visited:` —
Python truthiness — so the whole visited block (the membership test AND
`visited.add(addr)`) is skipped both when `visited` is `None` and when
it is an empty set.  The result is the returned value together with the
state of the usage set and of the visited set after the call. -/
def set_addr_category (s : UsageSet) (addr : Int) (category : Category)
    (level : Int) (visited : Option (List Int)) :
    PyRet × UsageSet × Option (List Int) :=
  match visited with
  | some v =>
    if v = [] then
      set_addr_category_found s addr category level (some v)
    else if addr ∈ v then
      (.pyFalse, s, some v)
    else
      set_addr_category_found s addr category level (some (addr :: v))
  | none => set_addr_category_found s addr category level none

/- Lemmas about the dict view of an updated usage list. -/

theorem find_update_self (l : List Usage) (a : Int) (f : Usage → Usage)
    (hf : ∀ u, (f u).start = u.start) :
    find_by_start (update_by_start l a f) a = (find_by_start l a).map f := by
  induction l with
  | nil => rfl
  | cons u rest ih =>
    by_cases h : u.start = a
    · simp [find_by_start, update_by_start, h, hf u]
    · simp [find_by_start, update_by_start, h, ih]

theorem find_update_other (l : List Usage) (a a' : Int) (f : Usage → Usage)
    (hf : ∀ u, (f u).start = u.start) (h : a' ≠ a) :
    find_by_start (update_by_start l a f) a' = find_by_start l a' := by
  induction l with
  | nil => rfl
  | cons u rest ih =>
    by_cases hu : u.start = a
    · simp [find_by_start, update_by_start, hu, hf u, h, Ne.symm h]
    · simp [find_by_start, update_by_start, hu, ih]

theorem update_update (l : List Usage) (a : Int) (f g : Usage → Usage)
    (hf : ∀ u, (f u).start = u.start) :
    update_by_start (update_by_start l a f) a g
      = update_by_start l a (fun u => g (f u)) := by
  induction l with
  | nil => rfl
  | cons u rest ih =>
    by_cases h : u.start = a
    · simp [update_by_start, h, hf u]
    · simp [update_by_start, h, ih]

theorem usage_by_address_set_self (s : UsageSet) (a : Int) (f : Usage → Usage)
    (hf : ∀ u, (f u).start = u.start) :
    usage_by_address (set_usage s a f) a = (usage_by_address s a).map f := by
  simp [usage_by_address, set_usage, find_update_self _ _ _ hf]

theorem usage_by_address_set_other (s : UsageSet) (a a' : Int) (f : Usage → Usage)
    (hf : ∀ u, (f u).start = u.start) (h : a' ≠ a) :
    usage_by_address (set_usage s a f) a' = usage_by_address s a' := by
  simp [usage_by_address, set_usage, find_update_other _ _ _ _ hf h]

theorem set_usage_set_usage (s : UsageSet) (a : Int) (f g : Usage → Usage)
    (hf : ∀ u, (f u).start = u.start) :
    set_usage (set_usage s a f) a g = set_usage s a (fun u => g (f u)) := by
  simp [set_usage, update_update _ _ _ _ hf]

/- ===== Claims C1, C10, C3 : set_addr_category semantics ===== -/

/-- The field update performed by a successful `set_addr_category` keeps the
start address (it only mutates `category` and `level`). -/
theorem record_keeps_start (c : Category) (l : Int) :
    ∀ u : Usage, (({ u with category := some c, level := some l } : Usage)).start = u.start :=
  fun _ => rfl

/-- C1: for an address present in the `UsageSet` whose usage has recorded
level `v`, `set_addr_category(addr, category, level)` records the new
category and level iff `level` is strictly greater than `v`; an equal or
lower level leaves the set unchanged.  Consequently two calls with levels
1 and 2 commute, and whenever the level-2 write is not itself dropped
(`v < 2`) the final recorded category is the level-2 one in either order. -/
theorem set_addr_category_monotone_refinement
    (s : UsageSet) (addr : Int) (u : Usage) (v : Int)
    (hu : usage_by_address s addr = some u) (hv : u.level = some v)
    (c c1 c2 : Category) (l : Int) :
    ((v < l →
        usage_by_address (set_addr_category s addr c l none).2.1 addr
          = some { u with category := some c, level := some l })
     ∧ (l ≤ v → (set_addr_category s addr c l none).2.1 = s))
    ∧ ((set_addr_category (set_addr_category s addr c1 1 none).2.1 addr c2 2 none).2.1
        = (set_addr_category (set_addr_category s addr c2 2 none).2.1 addr c1 1 none).2.1)
    ∧ (v < 2 →
        usage_by_address
          (set_addr_category (set_addr_category s addr c1 1 none).2.1 addr c2 2 none).2.1 addr
          = some { u with category := some c2, level := some 2 }) := by
  have hst : ∀ (c' : Category) (l' : Int) (u2 : Usage),
      (({ u2 with category := some c', level := some l' } : Usage)).start = u2.start :=
    fun _ _ _ => rfl
  constructor
  · constructor
    · intro hvl
      have hle : py_le_opt l u.level = false := by
        simp [py_le_opt, hv]; omega
      simp [set_addr_category, set_addr_category_found, hu, hle,
            usage_by_address_set_self _ _ _ (hst c l)]
    · intro hlv
      have hle : py_le_opt l u.level = true := by
        simp [py_le_opt, hv]; omega
      simp [set_addr_category, set_addr_category_found, hu, hle]
  · by_cases h2 : 2 ≤ v
    · -- both writes dropped in either order
      have h1 : (1:Int) ≤ v := by omega
      have hle1 : py_le_opt 1 u.level = true := by simp [py_le_opt, hv]; omega
      have hle2 : py_le_opt 2 u.level = true := by simp [py_le_opt, hv]; omega
      constructor
      · simp [set_addr_category, set_addr_category_found, hu, hle1, hle2]
      · intro hv2; omega
    · by_cases h1 : 1 ≤ v
      · -- v = 1 : the level-1 write is dropped, the level-2 write wins
        have hle1 : py_le_opt 1 u.level = true := by simp [py_le_opt, hv]; omega
        have hle2 : py_le_opt 2 u.level = false := by simp [py_le_opt, hv]; omega
        have h21 : usage_by_address (set_usage s addr
            (fun u2 => { u2 with category := some c2, level := some 2 })) addr
            = some { u with category := some c2, level := some 2 } := by
          simp [usage_by_address_set_self _ _ _ (hst c2 2), hu]
        have hrej : py_le_opt 1 (({ u with category := some c2, level := some 2 } : Usage)).level
            = true := by simp [py_le_opt]
        constructor
        · simp [set_addr_category, set_addr_category_found, hu, hle1, hle2, h21, hrej]
        · intro _
          simp [set_addr_category, set_addr_category_found, hu, hle1, hle2, h21, hrej]
      · -- v < 1 : both writes land, the level-2 one last in either order
        have hle1 : py_le_opt 1 u.level = false := by simp [py_le_opt, hv]; omega
        have hle2 : py_le_opt 2 u.level = false := by simp [py_le_opt, hv]; omega
        have h11 : usage_by_address (set_usage s addr
            (fun u2 => { u2 with category := some c1, level := some 1 })) addr
            = some { u with category := some c1, level := some 1 } := by
          simp [usage_by_address_set_self _ _ _ (hst c1 1), hu]
        have h22 : usage_by_address (set_usage s addr
            (fun u2 => { u2 with category := some c2, level := some 2 })) addr
            = some { u with category := some c2, level := some 2 } := by
          simp [usage_by_address_set_self _ _ _ (hst c2 2), hu]
        have hacc : py_le_opt 2 (({ u with category := some c1, level := some 1 } : Usage)).level
            = false := by simp [py_le_opt]
        have hrej : py_le_opt 1 (({ u with category := some c2, level := some 2 } : Usage)).level
            = true := by simp [py_le_opt]
        have hcomp : set_usage (set_usage s addr
              (fun u2 => { u2 with category := some c1, level := some 1 })) addr
              (fun u2 => { u2 with category := some c2, level := some 2 })
            = set_usage s addr (fun u2 => { u2 with category := some c2, level := some 2 }) := by
          rw [set_usage_set_usage _ _ _ _ (hst c1 1)]
        have hlook : usage_by_address (set_usage (set_usage s addr
              (fun u2 => { u2 with category := some c1, level := some 1 })) addr
              (fun u2 => { u2 with category := some c2, level := some 2 })) addr
            = some { u with category := some c2, level := some 2 } := by
          rw [hcomp]; exact h22
        constructor
        · simp [set_addr_category, set_addr_category_found, hu, hle1, hle2,
                h11, h22, hacc, hrej, hcomp]
        · intro _
          simp [set_addr_category, set_addr_category_found, hu, hle1, hle2,
                h11, h22, hacc, hrej, hlook]

/-- Witness for C1 at a concrete input: a usage set holding one usage at
address 100 with recorded level 0; a call at level 1 records the new
category and level. -/
theorem set_addr_category_monotone_refinement_witness :
    usage_by_address
      (set_addr_category ⟨[⟨100, 16, none, some 0, none, none⟩]⟩ 100
        ⟨"python", "str", none⟩ 1 none).2.1 100
      = some ⟨100, 16, some ⟨"python", "str", none⟩, some 1, none, none⟩ :=
  (set_addr_category_monotone_refinement ⟨[⟨100, 16, none, some 0, none, none⟩]⟩ 100
      ⟨100, 16, none, some 0, none, none⟩ 0 (by decide) rfl
      ⟨"python", "str", none⟩ ⟨"python", "str", none⟩ ⟨"python", "str", none⟩ 1).1.1
    (by decide)

/-- C10: `set_addr_category` returns `True` exactly when it records the
category: the address must be found in `usage_by_address`, must not be
blocked by the visited set, and the new level must not be `<=` the
recorded one (with an unset `None` level below every int, Python 2).
In every other case the returned value is falsy and the usage set is
left unchanged.  When it does record, only the usage at `addr` changes. -/
theorem set_addr_category_result_semantics
    (s : UsageSet) (addr : Int) (c : Category) (l : Int) (visited : Option (List Int)) :
    (((set_addr_category s addr c l visited).1).truthy = true ↔
      ((match visited with | some v => addr ∉ v | none => True)
        ∧ ∃ u, usage_by_address s addr = some u ∧ py_le_opt l u.level = false))
    ∧ (((set_addr_category s addr c l visited).1).truthy = false →
        (set_addr_category s addr c l visited).2.1 = s)
    ∧ (∀ u, usage_by_address s addr = some u →
        ((set_addr_category s addr c l visited).1).truthy = true →
        usage_by_address (set_addr_category s addr c l visited).2.1 addr
            = some { u with category := some c, level := some l }
          ∧ ∀ a, a ≠ addr →
              usage_by_address (set_addr_category s addr c l visited).2.1 a
                = usage_by_address s a) := by
  have hst : ∀ (u2 : Usage),
      (({ u2 with category := some c, level := some l } : Usage)).start = u2.start :=
    fun _ => rfl
  have hfound : ∀ (vis : Option (List Int)),
      (((set_addr_category_found s addr c l vis).1).truthy = true ↔
        ∃ u, usage_by_address s addr = some u ∧ py_le_opt l u.level = false)
      ∧ (((set_addr_category_found s addr c l vis).1).truthy = false →
          (set_addr_category_found s addr c l vis).2.1 = s)
      ∧ (∀ u, usage_by_address s addr = some u →
          ((set_addr_category_found s addr c l vis).1).truthy = true →
          usage_by_address (set_addr_category_found s addr c l vis).2.1 addr
              = some { u with category := some c, level := some l }
            ∧ ∀ a, a ≠ addr →
                usage_by_address (set_addr_category_found s addr c l vis).2.1 a
                  = usage_by_address s a) := by
    intro vis
    rcases hcase : usage_by_address s addr with _ | u
    · simp [set_addr_category_found, hcase, PyRet.truthy]
    · by_cases hle : py_le_opt l u.level
      · simp [set_addr_category_found, hcase, hle, PyRet.truthy]
      · refine ⟨?_, ?_, ?_⟩
        · simp [set_addr_category_found, hcase, hle, PyRet.truthy]
        · simp [set_addr_category_found, hcase, hle, PyRet.truthy]
        · intro u2 hu2 _
          injection hu2 with hu2
          subst hu2
          constructor
          · simp [set_addr_category_found, hcase, hle,
                  usage_by_address_set_self _ _ _ hst]
          · intro a ha
            simp [set_addr_category_found, hcase, hle,
                  usage_by_address_set_other _ _ _ _ hst ha]
  rcases visited with _ | v
  · simpa [set_addr_category] using hfound none
  · by_cases hv : v = []
    · subst hv
      have h := hfound (some [])
      simp [set_addr_category]
      exact h
    · by_cases hmem : addr ∈ v
      · simp [set_addr_category, hv, hmem, PyRet.truthy]
      · have h := hfound (some (addr :: v))
        simp [set_addr_category, hv, hmem]
        exact h

/-- Witness for C10 at a concrete input: address 200 present with unset
level, not in the visited set `{7}`, level-0 write accepted. -/
theorem set_addr_category_result_semantics_witness :
    ((set_addr_category ⟨[⟨200, 8, none, none, none, none⟩]⟩ 200
        ⟨"C", "string data", none⟩ 0 (some [7])).1).truthy = true :=
  (set_addr_category_result_semantics ⟨[⟨200, 8, none, none, none, none⟩]⟩ 200
      ⟨"C", "string data", none⟩ 0 (some [7])).1.mpr
    ⟨by decide, ⟨200, 8, none, none, none, none⟩, by decide, by decide⟩

/-- `set_addr_category_found` never touches the visited set. -/
theorem set_addr_category_found_keeps_visited (s : UsageSet) (addr : Int)
    (c : Category) (l : Int) (vis : Option (List Int)) :
    (set_addr_category_found s addr c l vis).2.2 = vis := by
  rcases h : usage_by_address s addr with _ | u
  · simp [set_addr_category_found, h]
  · by_cases hle : py_le_opt l u.level
    · simp [set_addr_category_found, h, hle]
    · simp [set_addr_category_found, h, hle]

/-- C3 counterexample: a call given an *empty* caller-supplied visited set
records a category (returns `True`) yet leaves the visited set empty — the
address is not a member of the visited set after the call, because the
`if visited:` guard treats an empty Python set as false and skips
`visited.add(addr)` entirely. -/
theorem set_addr_category_empty_visited_cex :
    (set_addr_category ⟨[⟨100, 16, none, none, none, none⟩]⟩ 100
        ⟨"python", "str", none⟩ 1 (some [])).1 = .pyTrue
    ∧ (set_addr_category ⟨[⟨100, 16, none, none, none, none⟩]⟩ 100
        ⟨"python", "str", none⟩ 1 (some [])).2.2 = some []
    ∧ (100 : Int) ∉ ([] : List Int) :=
  ⟨rfl, rfl, by decide⟩

/-- C3 amended: with a caller-supplied visited set, an already-visited
address makes `set_addr_category` return `False` without recording; and
provided the visited set is *non-empty* when passed (an empty set is
falsy in Python and is skipped — see the counterexample), the address is
a member of the visited set after the call, so any second call on the
same address within the same refinement records nothing and changes no
state: refinement cannot revisit an address. -/
theorem set_addr_category_visited_amended
    (s : UsageSet) (addr : Int) (c : Category) (l : Int) (v : List Int) :
    (addr ∈ v → set_addr_category s addr c l (some v) = (.pyFalse, s, some v))
    ∧ (v ≠ [] → ∃ v', (set_addr_category s addr c l (some v)).2.2 = some v'
        ∧ addr ∈ v')
    ∧ (v ≠ [] → ∀ (c2 : Category) (l2 : Int),
        set_addr_category (set_addr_category s addr c l (some v)).2.1 addr c2 l2
            (set_addr_category s addr c l (some v)).2.2
          = (.pyFalse, (set_addr_category s addr c l (some v)).2.1,
             (set_addr_category s addr c l (some v)).2.2)) := by
  refine ⟨?_, ?_, ?_⟩
  · intro hmem
    have hv : v ≠ [] := by intro h; subst h; simp at hmem
    simp [set_addr_category, hv, hmem]
  · intro hv
    by_cases hmem : addr ∈ v
    · exact ⟨v, by simp [set_addr_category, hv, hmem], hmem⟩
    · refine ⟨addr :: v, ?_, by simp⟩
      simp [set_addr_category, hv, hmem, set_addr_category_found_keeps_visited]
  · intro hv c2 l2
    by_cases hmem : addr ∈ v
    · simp [set_addr_category, hv, hmem]
    · have h2 : (set_addr_category s addr c l (some v)).2.2 = some (addr :: v) := by
        simp [set_addr_category, hv, hmem, set_addr_category_found_keeps_visited]
      rw [h2]
      simp [set_addr_category]

/-- Witness for the amended C3 at a concrete input: after a call given the
non-empty visited set `{50}`, address 100 is a member of the resulting
visited set. -/
theorem set_addr_category_visited_amended_witness :
    ∃ v', (set_addr_category ⟨[⟨100, 16, none, none, none, none⟩]⟩ 100
        ⟨"python", "str", none⟩ 1 (some [50])).2.2 = some v' ∧ (100 : Int) ∈ v' :=
  (set_addr_category_visited_amended ⟨[⟨100, 16, none, none, none, none⟩]⟩ 100
      ⟨"python", "str", none⟩ 1 [50]).2.1 (by decide)

/- ===== heap/glibc.py : MChunkPtr flags and MallocState walks ===== -/

/-- `MChunkPtr.PREV_INUSE`: size field is or-ed with 1 when the previous
adjacent chunk is in use. -/
def PREV_INUSE : Int := 1

/-- `MChunkPtr.IS_MMAPPED`: size field is or-ed with 2 when the chunk was
obtained with mmap(). -/
def IS_MMAPPED : Int := 2

/-- `MChunkPtr.NON_MAIN_ARENA`: size field is or-ed with 4 when the chunk
comes from a non-main arena. -/
def NON_MAIN_ARENA : Int := 4

/-- `SIZE_BITS = PREV_INUSE | IS_MMAPPED | NON_MAIN_ARENA = 7`. -/
def SIZE_BITS : Int := 7

/-- `MChunkPtr.has_flag(flag)`: `size & flag` for a single-bit flag
(1, 2 or 4).  On Python's arbitrary-precision integers `x & 2^k` equals
`x / 2^k % 2 * 2^k` with floor division, which is how it is rendered
here (`Int./` and `Int.%` round toward negative infinity for these
positive divisors, as Python does). -/
def has_flag (sz flag : Int) : Int := sz / flag % 2 * flag

/-- Python truthiness of the integer returned by `has_flag`. -/
def py_truthy_int (n : Int) : Bool := n != 0

/-- `MChunkPtr.chunksize()`: `size & ~SIZE_BITS`, i.e. the size field with
its low three flag bits cleared; on any Python int this equals
`size - size % 8`. -/
def chunksize (sz : Int) : Int := sz - sz % 8

/-- Inferior memory, as used by the chunk walks: reading the `size` field
of the chunk headed at an address.  `none` models a `RuntimeError` raised
by the read. -/
def Mem : Type := Int → Option Int

/-- `MChunkPtr.next_chunk()`: the chunk at `addr + chunksize`; reading the
size field may fail. -/
def next_chunk (mem : Mem) (p : Int) : Option Int :=
  (mem p).map (fun sz => p + chunksize sz)

/-- `MChunkPtr.is_inuse()` (`heap/glibc.py` lines 116-123): `True` when the
chunk has `IS_MMAPPED`; otherwise the truthiness of
`next_chunk().has_PREV_INUSE()`.  `none` models an escaped
`RuntimeError` from a size-field read. -/
def is_inuse (mem : Mem) (p : Int) : Option Bool :=
  match mem p with
  | none => none
  | some sz =>
    if py_truthy_int (has_flag sz IS_MMAPPED) then some true
    else
      match next_chunk mem p with
      | none => none
      | some nc => (mem nc).map (fun sz2 => py_truthy_int (has_flag sz2 PREV_INUSE))

/-- C2: a walked chunk is in use iff its size field has `IS_MMAPPED` set,
or the chunk at `addr + chunksize` (the next chunk) has `PREV_INUSE` set
in its own size field. -/
theorem is_inuse_iff (mem : Mem) (p sz sz2 : Int)
    (h1 : mem p = some sz) (h2 : mem (p + chunksize sz) = some sz2) :
    is_inuse mem p = some true ↔
      (has_flag sz IS_MMAPPED ≠ 0 ∨ has_flag sz2 PREV_INUSE ≠ 0) := by
  by_cases hm : has_flag sz IS_MMAPPED = 0
  · simp [is_inuse, h1, h2, next_chunk, py_truthy_int, hm]
  · simp [is_inuse, h1, h2, next_chunk, py_truthy_int, hm]

/-- Witness for C2 at a concrete input: size field 17 at address 0 (not
mmapped, chunksize 16), next size field 25 at address 16 with
`PREV_INUSE` set, so the chunk at 0 is in use. -/
theorem is_inuse_iff_witness :
    is_inuse (fun a => if a = 0 then some 17 else if a = 16 then some 25 else none) 0
      = some true :=
  (is_inuse_iff (fun a => if a = 0 then some 17 else if a = 16 then some 25 else none)
      0 17 25 (by decide) (by decide)).mpr (Or.inr (by decide))

/-- The loop of `MallocState.iter_sbrk_chunks`: yield the chunk, then move
to `next_chunk()`, breaking on a `RuntimeError`; stop (without yielding)
when the address equals `top`.  The fuel bounds the number of
iterations of the Python `while` loop. -/
def sbrk_loop (mem : Mem) (top : Int) : Nat → Int → List Int
  | 0, _ => []
  | n + 1, p =>
    if p = top then []
    else
      p :: (match next_chunk mem p with
            | none => []
            | some q => sbrk_loop mem top n q)

/-- `MallocState.iter_sbrk_chunks` (`heap/glibc.py` lines 214-247): start
at `sbrk_base`; only walk when the address is `> 0` (`sbrk_base` is NULL
when no small allocations have happened); iterate until `top`. -/
def iter_sbrk_chunks (mem : Mem) (sbrk_base top : Int) (fuel : Nat) : List Int :=
  if sbrk_base > 0 then sbrk_loop mem top fuel sbrk_base else []

/-- The main-arena walk as worded by the spec (second definition, used to
compare the source embedding against the claim): start at `sbrk_base`
unless it is the null address, repeatedly step `next = addr + chunksize`,
stop on reaching `top`. -/
def spec_sbrk_walk (memT : Int → Int) (top : Int) : Nat → Int → List Int
  | 0, _ => []
  | n + 1, p =>
    if p = top then [] else p :: spec_sbrk_walk memT top n (p + chunksize (memT p))

/-- Whole spec-worded main-arena walk, including the null `sbrk_base` case. -/
def spec_sbrk (memT : Int → Int) (sbrk_base top : Int) (fuel : Nat) : List Int :=
  if sbrk_base = 0 then [] else spec_sbrk_walk memT top fuel sbrk_base

theorem sbrk_loop_not_top (mem : Mem) (top : Int) (n : Nat) (p : Int) :
    top ∉ sbrk_loop mem top n p := by
  induction n generalizing p with
  | zero => simp [sbrk_loop]
  | succ n ih =>
    by_cases h : p = top
    · simp [sbrk_loop, h]
    · rcases hq : next_chunk mem p with _ | q
      · simp [sbrk_loop, h, hq]
        exact fun hc => (h hc.symm).elim
      · simp [sbrk_loop, h, hq]
        exact ⟨fun hc => (h hc.symm).elim, ih q⟩

theorem sbrk_loop_total (memT : Int → Int) (top : Int) (n : Nat) (p : Int) :
    sbrk_loop (fun a => some (memT a)) top n p = spec_sbrk_walk memT top n p := by
  induction n generalizing p with
  | zero => rfl
  | succ n ih =>
    by_cases h : p = top
    · simp [sbrk_loop, spec_sbrk_walk, h]
    · simp [sbrk_loop, spec_sbrk_walk, h, next_chunk, ih]

/-- C4: the brk/sbrk walk yields no chunks when `sbrk_base` is the null
address; it never yields the `top` (wilderness) chunk; and, when every
size-field read succeeds, it yields exactly the chain starting at
`sbrk_base` with each successive chunk at `addr + chunksize`, stopping
when the computed address equals `top` (for any non-negative
`sbrk_base`, i.e. any actual address). -/
theorem iter_sbrk_chunks_spec (mem : Mem) (memT : Int → Int)
    (sbrk_base top : Int) (fuel : Nat) :
    iter_sbrk_chunks mem 0 top fuel = []
    ∧ top ∉ iter_sbrk_chunks mem sbrk_base top fuel
    ∧ (0 ≤ sbrk_base →
        iter_sbrk_chunks (fun a => some (memT a)) sbrk_base top fuel
          = spec_sbrk memT sbrk_base top fuel) := by
  refine ⟨by simp [iter_sbrk_chunks], ?_, ?_⟩
  · by_cases h : sbrk_base > 0
    · simpa [iter_sbrk_chunks, h] using sbrk_loop_not_top mem top fuel sbrk_base
    · simp [iter_sbrk_chunks, h]
  · intro hpos
    by_cases h : sbrk_base = 0
    · simp [iter_sbrk_chunks, spec_sbrk, h]
    · have hgt : sbrk_base > 0 := lt_of_le_of_ne hpos (Ne.symm h)
      simp [iter_sbrk_chunks, spec_sbrk, h, hgt, sbrk_loop_total]

/-- Witness for C4 at a concrete input: constant size field 17
(chunksize 16), base 8, top 40: the source walk equals the spec walk
(both yield the chunks at 8 and 24 and stop at 40). -/
theorem iter_sbrk_chunks_spec_witness :
    iter_sbrk_chunks (fun a => some ((fun _ => (17 : Int)) a)) 8 40 10
      = spec_sbrk (fun _ => (17 : Int)) 8 40 10 :=
  (iter_sbrk_chunks_spec (fun a => some ((fun _ => (17 : Int)) a)) (fun _ => (17 : Int))
      8 40 10).2.2 (by decide)

/-- The inner loop of `MallocState.iter_mmap_chunks` (`heap/glibc.py`
lines 206-210): while the chunk address is below the region's `end` and
the chunk is flagged `IS_MMAPPED`, yield it and advance to
`next_chunk()`; a `RuntimeError` from a size-field read is caught by the
surrounding `except` clause, silently discarding the rest of the region
(everything yielded before the failure stands, because the generator has
already produced it). -/
def mmap_loop (mem : Mem) (end_ : Int) : Nat → Int → List Int
  | 0, _ => []
  | n + 1, p =>
    if p < end_ then
      match mem p with
      | none => []
      | some sz =>
        if py_truthy_int (has_flag sz IS_MMAPPED) then
          p :: mmap_loop mem end_ n (p + chunksize sz)
        else []
    else []

/-- The per-region body of `MallocState.iter_mmap_chunks` (`heap/glibc.py`
lines 194-212): interpret `start` as a chunk header and accept it only
if it is not flagged `NON_MAIN_ARENA`, is flagged `IS_MMAPPED`, and
`start + chunksize <= end`; then run the loop.  A read failure anywhere
(including the initial flag reads) is caught by `except RuntimeError:
pass`. -/
def iter_mmap_region (mem : Mem) (start end_ : Int) (fuel : Nat) : List Int :=
  match mem start with
  | none => []
  | some sz =>
    if ¬ py_truthy_int (has_flag sz NON_MAIN_ARENA)
        ∧ py_truthy_int (has_flag sz IS_MMAPPED)
        ∧ start + chunksize sz ≤ end_ then
      mmap_loop mem end_ fuel start
    else []

/-- The mapped-region walk as worded by the spec (second definition, for
comparison): accept `start` only if flagged `IS_MMAPPED`, not flagged
`NON_MAIN_ARENA`, and its chunk size fits within the region; then yield
chunk-by-chunk while inside the region and still flagged `IS_MMAPPED`. -/
def spec_mmap_walk (memT : Int → Int) (end_ : Int) : Nat → Int → List Int
  | 0, _ => []
  | n + 1, p =>
    if p < end_ ∧ has_flag (memT p) IS_MMAPPED ≠ 0 then
      p :: spec_mmap_walk memT end_ n (p + chunksize (memT p))
    else []

/-- Whole spec-worded region walk including the acceptance test. -/
def spec_mmap_region (memT : Int → Int) (start end_ : Int) (fuel : Nat) : List Int :=
  if has_flag (memT start) IS_MMAPPED ≠ 0 ∧ has_flag (memT start) NON_MAIN_ARENA = 0
      ∧ start + chunksize (memT start) ≤ end_ then
    spec_mmap_walk memT end_ fuel start
  else []

theorem mmap_loop_mem (mem : Mem) (end_ : Int) (n : Nat) (p : Int) :
    ∀ a ∈ mmap_loop mem end_ n p,
      a < end_ ∧ ∃ sz, mem a = some sz ∧ has_flag sz IS_MMAPPED ≠ 0 := by
  induction n generalizing p with
  | zero => simp [mmap_loop]
  | succ n ih =>
    intro a ha
    by_cases hlt : p < end_
    · rcases hsz : mem p with _ | sz
      · simp [mmap_loop, hlt, hsz] at ha
      · by_cases hfl : py_truthy_int (has_flag sz IS_MMAPPED)
        · simp [mmap_loop, hlt, hsz, hfl] at ha
          rcases ha with ha | ha
          · subst ha
            refine ⟨hlt, sz, hsz, ?_⟩
            simpa [py_truthy_int] using hfl
          · exact ih _ a ha
        · simp [mmap_loop, hlt, hsz, hfl] at ha
    · simp [mmap_loop, hlt] at ha

theorem mmap_loop_total (memT : Int → Int) (end_ : Int) (n : Nat) (p : Int) :
    mmap_loop (fun a => some (memT a)) end_ n p = spec_mmap_walk memT end_ n p := by
  induction n generalizing p with
  | zero => rfl
  | succ n ih =>
    by_cases hlt : p < end_
    · by_cases hfl : has_flag (memT p) IS_MMAPPED = 0
      · simp [mmap_loop, spec_mmap_walk, hlt, py_truthy_int, hfl]
      · simp [mmap_loop, spec_mmap_walk, hlt, py_truthy_int, hfl, ih]
    · simp [mmap_loop, spec_mmap_walk, hlt]

/-- C5: for a mapped region `[start, end)`: every chunk the walk yields is
below `end` and has a readable size field with `IS_MMAPPED` set; an
unreadable address is never yielded; a read failure at `start` silently
yields nothing; a `start` chunk failing the acceptance test
(`IS_MMAPPED` set, `NON_MAIN_ARENA` clear, `start + chunksize <= end`)
yields nothing; and with all reads succeeding the walk is exactly the
spec-worded walk. -/
theorem iter_mmap_region_spec (mem : Mem) (memT : Int → Int)
    (start end_ : Int) (fuel : Nat) :
    (∀ a ∈ iter_mmap_region mem start end_ fuel,
        a < end_ ∧ ∃ sz, mem a = some sz ∧ has_flag sz IS_MMAPPED ≠ 0)
    ∧ (∀ a, mem a = none → a ∉ iter_mmap_region mem start end_ fuel)
    ∧ (mem start = none → iter_mmap_region mem start end_ fuel = [])
    ∧ (∀ sz, mem start = some sz →
        ¬(has_flag sz IS_MMAPPED ≠ 0 ∧ has_flag sz NON_MAIN_ARENA = 0
            ∧ start + chunksize sz ≤ end_) →
        iter_mmap_region mem start end_ fuel = [])
    ∧ iter_mmap_region (fun a => some (memT a)) start end_ fuel
        = spec_mmap_region memT start end_ fuel := by
  have hmem : ∀ a ∈ iter_mmap_region mem start end_ fuel,
      a < end_ ∧ ∃ sz, mem a = some sz ∧ has_flag sz IS_MMAPPED ≠ 0 := by
    intro a ha
    rcases hsz : mem start with _ | sz
    · simp [iter_mmap_region, hsz] at ha
    · by_cases hacc : ¬ py_truthy_int (has_flag sz NON_MAIN_ARENA)
          ∧ py_truthy_int (has_flag sz IS_MMAPPED)
          ∧ start + chunksize sz ≤ end_
      · rw [iter_mmap_region, hsz] at ha
        simp only [if_pos hacc] at ha
        exact mmap_loop_mem mem end_ fuel start a ha
      · rw [iter_mmap_region, hsz] at ha
        simp only [if_neg hacc] at ha
        simp at ha
  refine ⟨hmem, ?_, ?_, ?_, ?_⟩
  · intro a hnone hin
    rcases hmem a hin with ⟨_, sz, hsz, _⟩
    rw [hnone] at hsz
    cases hsz
  · intro hnone
    simp [iter_mmap_region, hnone]
  · intro sz hsz hrej
    have hneg : ¬(¬ py_truthy_int (has_flag sz NON_MAIN_ARENA)
        ∧ py_truthy_int (has_flag sz IS_MMAPPED)
        ∧ start + chunksize sz ≤ end_) := by
      intro ⟨hn, hf, hle⟩
      exact hrej ⟨by simpa [py_truthy_int] using hf, by simpa [py_truthy_int] using hn, hle⟩
    simp only [iter_mmap_region, hsz]
    rw [if_neg hneg]
  · show (if ¬ py_truthy_int (has_flag (memT start) NON_MAIN_ARENA)
        ∧ py_truthy_int (has_flag (memT start) IS_MMAPPED)
        ∧ start + chunksize (memT start) ≤ end_ then
          mmap_loop (fun a => some (memT a)) end_ fuel start
        else []) = spec_mmap_region memT start end_ fuel
    by_cases hacc : has_flag (memT start) IS_MMAPPED ≠ 0
        ∧ has_flag (memT start) NON_MAIN_ARENA = 0
        ∧ start + chunksize (memT start) ≤ end_
    · rw [spec_mmap_region, if_pos hacc]
      rw [if_pos ⟨by simp [py_truthy_int, hacc.2.1], by simp [py_truthy_int, hacc.1], hacc.2.2⟩]
      exact mmap_loop_total memT end_ fuel start
    · rw [spec_mmap_region, if_neg hacc]
      rw [if_neg]
      intro ⟨hn, hf, hle⟩
      exact hacc ⟨by simpa [py_truthy_int] using hf, by simpa [py_truthy_int] using hn, hle⟩

/-- Witness for C5 at a concrete input: a region `[0, 100)` whose first
size field reads as 19 (`IS_MMAPPED` and `PREV_INUSE` set,
`NON_MAIN_ARENA` clear, chunksize 16): the walk matches the spec walk. -/
theorem iter_mmap_region_spec_witness :
    iter_mmap_region (fun _ => none) 0 100 6 = [] :=
  (iter_mmap_region_spec (fun _ => none) (fun _ => (19 : Int)) 0 100 6).2.2.1 rfl

/- ===== heap/cpython.py : PyPoolPtr and its block walks ===== -/

/-- `INDEX2SIZE(I) = (I + 1) << ALIGNMENT_SHIFT` with `ALIGNMENT_SHIFT = 3`:
the byte size of size class `I` (a left shift by 3 is multiplication by 8
on any Python int). -/
def INDEX2SIZE (i : Int) : Int := (i + 1) * 8

/-- `ROUNDUP(x) = (x + ALIGNMENT_MASK) & ~ALIGNMENT_MASK` with
`ALIGNMENT_MASK = 7`: round up to a multiple of 8 (clearing the low three
bits of `x + 7` is `(x + 7) - (x + 7) % 8` on any Python int). -/
def ROUNDUP (x : Int) : Int := (x + 7) - (x + 7) % 8

/-- `POOL_OVERHEAD() = ROUNDUP(sizeof(struct pool_header))`; the header
size comes from the inferior's debug metadata and is a parameter here. -/
def POOL_OVERHEAD (sizeof_pool_header : Int) : Int := ROUNDUP sizeof_pool_header

/-- A CPython obmalloc pool as read from the inferior
(`heap/cpython.py`, `PyPoolPtr`): its address, the `szidx`,
`nextoffset` and `freeblock` header fields, and the pointer-width memory
read used to follow the free list (the first word of a free block holds
the next free block's address). -/
structure PyPool where
  addr : Int
  szidx : Int
  nextoffset : Int
  freeblock : Int
  mem : Int → Int

/-- `PyPoolPtr.block_size() = INDEX2SIZE(szidx)`. -/
def block_size (p : PyPool) : Int := INDEX2SIZE p.szidx

/-- `PyPoolPtr._firstoffset() = POOL_OVERHEAD()`. -/
def pool_firstoffset (sizeof_pool_header : Int) : Int := POOL_OVERHEAD sizeof_pool_header

/-- The loop of `PyPoolPtr.iter_free_blocks` (`heap/cpython.py` lines
165-176): walk the singly-linked free list threaded through each free
block's first pointer-width bytes, yielding `(addr, block_size)` pairs,
until a null pointer.  `none` when the fuel is exhausted before the
walk reaches null (the Python loop would still be running). -/
def free_list_walk (p : PyPool) : Nat → Int → Option (List (Int × Int))
  | 0, fb => if fb = 0 then some [] else none
  | n + 1, fb =>
    if fb = 0 then some []
    else (free_list_walk p n (p.mem fb)).map (fun rest => (fb, block_size p) :: rest)

/-- `list(self.iter_free_blocks())` starting from the pool's `freeblock`
header field. -/
def iter_free_blocks (p : PyPool) (fuel : Nat) : Option (List (Int × Int)) :=
  free_list_walk p fuel p.freeblock

/-- `PyPoolPtr._free_blocks()`: the set of addresses of free blocks. -/
def free_block_addresses (p : PyPool) (fuel : Nat) : Option (List Int) :=
  (iter_free_blocks p fuel).map (List.map Prod.fst)

/-- The loop of `PyPoolPtr.iter_used_blocks` (`heap/cpython.py` lines
191-200): iterate offsets upward from `_firstoffset()` while
`offset < nextoffset` (blocks beyond `nextoffset` have never been
allocated), yielding `(base_addr + offset, block_size)` for every block
whose address is not in the free-block set.  `none` when the fuel is
exhausted with the Python loop still running. -/
def used_blocks_loop (p : PyPool) (free_addrs : List Int) :
    Nat → Int → Option (List (Int × Int))
  | 0, offset => if offset < p.nextoffset then none else some []
  | n + 1, offset =>
    if offset < p.nextoffset then
      (used_blocks_loop p free_addrs n (offset + block_size p)).map (fun rest =>
        if p.addr + offset ∈ free_addrs then rest
        else (p.addr + offset, block_size p) :: rest)
    else some []

/-- `PyPoolPtr.iter_used_blocks`. -/
def iter_used_blocks (p : PyPool) (sizeof_pool_header : Int) (fuel fuel2 : Nat) :
    Option (List (Int × Int)) :=
  (free_block_addresses p fuel).bind (fun fa =>
    used_blocks_loop p fa fuel2 (pool_firstoffset sizeof_pool_header))

/-- The category of the pool-header overhead usage. -/
def pool_header_cat : Category := ⟨"pyarena", "pool_header overhead", none⟩

/-- The category of a freed pool chunk usage. -/
def freed_chunk_cat : Category := ⟨"pyarena", "freed pool chunk", none⟩

/-- `PyPoolPtr.iter_usage` (`heap/cpython.py` lines 149-163): one usage
for the `struct pool_header` at the front, one per free block, then one
per used block whose `(start, size)` pair is not among the free blocks. -/
def pool_iter_usage (p : PyPool) (sizeof_pool_header : Int) (fuel fuel2 : Nat) :
    Option (List Usage) :=
  match iter_free_blocks p fuel with
  | none => none
  | some fb =>
    match iter_used_blocks p sizeof_pool_header fuel fuel2 with
    | none => none
    | some used =>
      some (⟨p.addr, POOL_OVERHEAD sizeof_pool_header, some pool_header_cat, none, none, none⟩
        :: fb.map (fun bp => ⟨bp.1, bp.2, some freed_chunk_cat, none, none, none⟩)
        ++ (used.filter (fun bp => decide (bp ∉ fb))).map
             (fun bp => ⟨bp.1, bp.2, none, none, none, none⟩))

/-- The block offsets described by the spec: starting at the first offset
past the pool header, step by the block size while strictly below the
pool's high-water `nextoffset`. -/
def spec_block_offsets (size nextoffset : Int) : Nat → Int → List Int
  | 0, _ => []
  | n + 1, offset =>
    if offset < nextoffset then offset :: spec_block_offsets size nextoffset n (offset + size)
    else []

theorem free_list_walk_sizes (p : PyPool) (n : Nat) (fb : Int)
    (l : List (Int × Int)) (h : free_list_walk p n fb = some l) :
    ∀ bp ∈ l, bp.2 = block_size p := by
  induction n generalizing fb l with
  | zero =>
    by_cases hfb : fb = 0
    · simp [free_list_walk, hfb] at h
      subst h; simp
    · simp [free_list_walk, hfb] at h
  | succ n ih =>
    by_cases hfb : fb = 0
    · simp [free_list_walk, hfb] at h
      subst h; simp
    · rcases hrec : free_list_walk p n (p.mem fb) with _ | rest
      · simp [free_list_walk, if_neg hfb, hrec] at h
      · simp only [free_list_walk, if_neg hfb, hrec, Option.map_some',
                   Option.some.injEq] at h
        subst h
        intro bp hbp
        rcases List.mem_cons.mp hbp with hbp | hbp
        · subst hbp; rfl
        · exact ih _ _ hrec bp hbp

theorem spec_block_offsets_lt (size next : Int) (n : Nat) (offset : Int) :
    ∀ off ∈ spec_block_offsets size next n offset, off < next := by
  induction n generalizing offset with
  | zero => simp [spec_block_offsets]
  | succ n ih =>
    intro off hoff
    by_cases hlt : offset < next
    · simp only [spec_block_offsets, if_pos hlt] at hoff
      rcases List.mem_cons.mp hoff with hoff | hoff
      · subst hoff; exact hlt
      · exact ih _ off hoff
    · simp [spec_block_offsets, if_neg hlt] at hoff

theorem used_blocks_loop_spec (p : PyPool) (fa : List Int) (n : Nat)
    (offset : Int) (l : List (Int × Int))
    (h : used_blocks_loop p fa n offset = some l) :
    l = ((spec_block_offsets (block_size p) p.nextoffset n offset).filter
          (fun off => decide (p.addr + off ∉ fa))).map
        (fun off => (p.addr + off, block_size p)) := by
  induction n generalizing offset l with
  | zero =>
    by_cases hlt : offset < p.nextoffset
    · simp [used_blocks_loop, hlt] at h
    · simp [used_blocks_loop, hlt] at h
      subst h; simp [spec_block_offsets]
  | succ n ih =>
    by_cases hlt : offset < p.nextoffset
    · rcases hrec : used_blocks_loop p fa n (offset + block_size p) with _ | rest
      · simp [used_blocks_loop, if_pos hlt, hrec] at h
      · simp only [used_blocks_loop, if_pos hlt, hrec, Option.map_some',
                   Option.some.injEq] at h
        have hr := ih _ _ hrec
        by_cases hmem : p.addr + offset ∈ fa
        · simp only [if_pos hmem] at h
          subst h
          simp only [spec_block_offsets, if_pos hlt, List.filter_cons]
          rw [if_neg (by simpa using hmem)]
          exact hr
        · simp only [if_neg hmem] at h
          subst h
          simp only [spec_block_offsets, if_pos hlt, List.filter_cons]
          rw [if_pos (by simpa using hmem)]
          simp only [List.map_cons]
          rw [hr]
    · simp only [used_blocks_loop, if_neg hlt] at h
      injection h with h
      subst h
      simp [spec_block_offsets, if_neg hlt]

theorem pair_mem_map_fst (fb : List (Int × Int)) (bs a : Int)
    (h : ∀ bp ∈ fb, bp.2 = bs) :
    ((a, bs) ∈ fb ↔ a ∈ fb.map Prod.fst) := by
  constructor
  · intro hm
    exact List.mem_map_of_mem Prod.fst hm
  · intro hm
    rcases List.mem_map.mp hm with ⟨bp, hbp, hfst⟩
    have hsnd := h bp hbp
    have : bp = (a, bs) := by
      rcases bp with ⟨b1, b2⟩
      simp at hfst hsnd
      simp [hfst, hsnd]
    rw [← this]
    exact hbp

/-- C6: when the pool walks terminate, `PyPoolPtr.iter_usage` yields
exactly: one usage covering the pool-header overhead; one usage per free
block obtained by walking the free list (each of the pool's block size);
and one usage per used block, the used blocks being exactly the block
addresses at offsets below the pool's `nextoffset` high-water mark whose
address is not in the free-block set — and every such offset is strictly
below `nextoffset`, so no never-yet-touched tail block is yielded. -/
theorem pool_iter_usage_spec (p : PyPool) (php : Int) (fuel fuel2 : Nat)
    (l : List Usage) (h : pool_iter_usage p php fuel fuel2 = some l) :
    ∃ fb, iter_free_blocks p fuel = some fb
      ∧ (∀ bp ∈ fb, bp.2 = block_size p)
      ∧ l = ⟨p.addr, POOL_OVERHEAD php, some pool_header_cat, none, none, none⟩
          :: fb.map (fun bp => ⟨bp.1, bp.2, some freed_chunk_cat, none, none, none⟩)
          ++ ((spec_block_offsets (block_size p) p.nextoffset fuel2
                  (pool_firstoffset php)).filter
                (fun off => decide (p.addr + off ∉ fb.map Prod.fst))).map
              (fun off => ⟨p.addr + off, block_size p, none, none, none, none⟩)
      ∧ (∀ off ∈ spec_block_offsets (block_size p) p.nextoffset fuel2
            (pool_firstoffset php), off < p.nextoffset) := by
  rcases hfb : iter_free_blocks p fuel with _ | fb
  · simp [pool_iter_usage, hfb] at h
  · rcases hused : iter_used_blocks p php fuel fuel2 with _ | used
    · simp [pool_iter_usage, hfb, hused] at h
    · simp only [pool_iter_usage, hfb, hused, Option.some.injEq] at h
      have hloop : used_blocks_loop p (fb.map Prod.fst) fuel2 (pool_firstoffset php)
          = some used := by
        simpa [iter_used_blocks, free_block_addresses, hfb] using hused
      have hsizes := free_list_walk_sizes p fuel p.freeblock fb hfb
      have hu := used_blocks_loop_spec p (fb.map Prod.fst) fuel2 _ used hloop
      have hfilter : used.filter (fun bp => decide (bp ∉ fb)) = used := by
        rw [List.filter_eq_self]
        intro bp hbp
        rw [hu] at hbp
        rcases List.mem_map.mp hbp with ⟨off, hoff, hpair⟩
        have hnotin : p.addr + off ∉ fb.map Prod.fst := by
          have := (List.mem_filter.mp hoff).2
          simpa using this
        subst hpair
        simp only [decide_eq_true_eq]
        intro hin
        exact hnotin ((pair_mem_map_fst fb (block_size p) (p.addr + off) hsizes).mp hin)
      refine ⟨fb, by simp [hfb], hsizes, ?_, spec_block_offsets_lt _ _ _ _⟩
      rw [← h, hfilter, hu, List.map_map]
      rfl

/-- A concrete pool: address 8192, size class 1 (16-byte blocks), header
overhead 48, high-water `nextoffset` 96, free list containing only the
block at 8256. -/
def sample_pool : PyPool := ⟨8192, 1, 96, 8256, fun _ => 0⟩

/-- What `iter_usage` yields on `sample_pool`: the header, the free block
at 8256, and the used blocks at 8240 and 8272 (the tail past offset 96
is never yielded). -/
def sample_pool_usage : List Usage :=
  [⟨8192, 48, some pool_header_cat, none, none, none⟩,
   ⟨8256, 16, some freed_chunk_cat, none, none, none⟩,
   ⟨8240, 16, none, none, none, none⟩,
   ⟨8272, 16, none, none, none, none⟩]

/-- Witness for C6 at the concrete `sample_pool`. -/
theorem pool_iter_usage_spec_witness :
    ∃ fb, iter_free_blocks sample_pool 4 = some fb
      ∧ (∀ bp ∈ fb, bp.2 = block_size sample_pool)
      ∧ sample_pool_usage
          = ⟨sample_pool.addr, POOL_OVERHEAD 48, some pool_header_cat, none, none, none⟩
            :: fb.map (fun bp => ⟨bp.1, bp.2, some freed_chunk_cat, none, none, none⟩)
            ++ ((spec_block_offsets (block_size sample_pool) sample_pool.nextoffset 5
                    (pool_firstoffset 48)).filter
                  (fun off => decide (sample_pool.addr + off ∉ fb.map Prod.fst))).map
                (fun off => ⟨sample_pool.addr + off, block_size sample_pool, none, none, none, none⟩)
      ∧ (∀ off ∈ spec_block_offsets (block_size sample_pool) sample_pool.nextoffset 5
            (pool_firstoffset 48), off < sample_pool.nextoffset) :=
  pool_iter_usage_spec sample_pool 48 4 5 sample_pool_usage (by decide)

/- ===== heap/history.py : Snapshot sets and Diff ===== -/

/-- A `Usage` instance as a Python runtime object.  The class in
`heap/__init__.py` defines neither `__eq__` nor `__hash__`, so Python
falls back to object identity for both; `obj_id` models that identity
(every scan constructs fresh objects, so records from different scans
always have different identities). -/
structure UsageObj where
  obj_id : Nat
  start : Int
  size : Int
  category : Option Category
deriving DecidableEq

/-- Python `==` between two `Usage` instances: default object identity. -/
def py_usage_eq (a b : UsageObj) : Bool := a.obj_id == b.obj_id

/-- Python set difference `xs - ys` under the `Usage` equality the code
actually has (identity). -/
def py_set_diff (xs ys : List UsageObj) : List UsageObj :=
  xs.filter (fun x => !(ys.any (py_usage_eq x)))

/-- `Diff.__init__` (`heap/history.py` lines 55-56):
`new_minus_old = new._all_usage - old._all_usage`. -/
def diff_new_minus_old (old new_ : List UsageObj) : List UsageObj :=
  py_set_diff new_ old

/-- `old_minus_new = old._all_usage - new._all_usage`. -/
def diff_old_minus_new (old new_ : List UsageObj) : List UsageObj :=
  py_set_diff old new_

/-- The usage record of one allocation as captured by a first scan. -/
def scan1_usage : UsageObj := ⟨1, 4096, 16, some ⟨"python", "str", none⟩⟩

/-- The same allocation captured by a second scan: equal
`(start, size, category)` triple, but a fresh Python object. -/
def scan2_usage : UsageObj := ⟨2, 4096, 16, some ⟨"python", "str", none⟩⟩

/-- C7 (code bug, evaluated at the failing input): `Usage` defines no
`__eq__`/`__hash__`, so two records of the *same unchanged allocation*
from two scans — equal `(start, size, category)` — are unequal as set
elements, and `Diff` reports the allocation both as added and as
removed instead of reporting no change. -/
theorem usage_identity_diff_bug :
    (scan1_usage.start = scan2_usage.start
      ∧ scan1_usage.size = scan2_usage.size
      ∧ scan1_usage.category = scan2_usage.category)
    ∧ py_usage_eq scan1_usage scan2_usage = false
    ∧ diff_new_minus_old [scan1_usage] [scan2_usage] = [scan2_usage]
    ∧ diff_old_minus_new [scan1_usage] [scan2_usage] = [scan1_usage] := by
  decide

/- ===== heap/query.py : expression AST and evaluation ===== -/

/-- A Python value as produced by query evaluation: integers (Python
`bool` is an `int` subtype, `True == 1`), strings, `Category` tuples,
opaque wrapped-pointer objects (by address), and `None`. -/
inductive PyVal where
  | int (n : Int)
  | str (s : String)
  | cat (c : Category)
  | obj (addr : Int)
  | none_
deriving DecidableEq

/-- A Python `bool`, as the `int` it is (`True == 1`, `False == 0`). -/
def py_bool (b : Bool) : PyVal := .int (if b then 1 else 0)

/-- Python truthiness of an evaluation result. -/
def py_val_truthy : PyVal → Bool
  | .int n => n != 0
  | .str s => s != ""
  | .cat _ => true
  | .obj _ => true
  | .none_ => false

/-- A Python exception escaping query evaluation. -/
inductive PyErr where
  | attributeError (name : String)
  | typeError
deriving DecidableEq

/-- The query AST of `heap/query.py`: `Constant`, `GetAttr`, the six
`Comparison__*__` classes, `And`, `Or`, `Not`. -/
inductive Expression where
  | constant (v : PyVal)
  | getAttr (attrname : String)
  | comparisonLe (lhs rhs : Expression)
  | comparisonLt (lhs rhs : Expression)
  | comparisonEq (lhs rhs : Expression)
  | comparisonNe (lhs rhs : Expression)
  | comparisonGe (lhs rhs : Expression)
  | comparisonGt (lhs rhs : Expression)
  | and_ (lhs rhs : Expression)
  | or_ (lhs rhs : Expression)
  | not_ (inner : Expression)
deriving DecidableEq

/-- `GetAttr.eval_` (`heap/query.py` lines 44-48): for `category`, first
force `ensure_category()` (the categorization oracle is a parameter);
then `getattr(u, attrname)`.  `Usage` has exactly the attributes
`start, size, category, level, hd, obj`; any other name raises
`AttributeError`. -/
def getattr_usage (categorizer : Usage → Category) (u : Usage) :
    String → Except PyErr PyVal
  | "start" => .ok (.int u.start)
  | "size" => .ok (.int u.size)
  | "category" =>
    match u.category with
    | some c => .ok (.cat c)
    | none => .ok (.cat (categorizer u))
  | "level" => .ok (match u.level with | some n => .int n | none => .none_)
  | "hd" => .ok (match u.hd with | some s => .str s | none => .none_)
  | "obj" => .ok (match u.obj with | some a => .obj a | none => .none_)
  | name => .error (.attributeError name)

/-- Python 2 `<=` on evaluated operands: defined here for same-type
int/int and str/str comparisons (the only ones the code's own tests
exercise); CPython 2's arbitrary cross-type ordering is out of the
model's scope and flagged as an error. -/
def py_le_val (a b : PyVal) : Except PyErr Bool :=
  match a, b with
  | .int m, .int n => .ok (decide (m ≤ n))
  | .str s, .str t => .ok (decide (s ≤ t))
  | _, _ => .error .typeError

/-- Python 2 `<` (same scope as `py_le_val`). -/
def py_lt_val (a b : PyVal) : Except PyErr Bool :=
  match a, b with
  | .int m, .int n => .ok (decide (m < n))
  | .str s, .str t => .ok (decide (s < t))
  | _, _ => .error .typeError

/-- Python `==`: same-type structural comparison; values of different
types compare unequal (never an error). -/
def py_eq_val (a b : PyVal) : Bool :=
  match a, b with
  | .int m, .int n => m == n
  | .str s, .str t => s == t
  | .cat c, .cat d => c == d
  | .obj x, .obj y => x == y
  | .none_, .none_ => true
  | _, _ => false

/-- `Expression.eval_` (`heap/query.py`): `Constant` returns its value;
`GetAttr` reads the attribute; each `Comparison__*__` evaluates both
sides then applies its operator; `And`/`Or` short-circuit (returning the
Python `False`/`True` bool, otherwise the raw operand value); `Not`
negates truthiness. -/
def eval_ (categorizer : Usage → Category) : Expression → Usage → Except PyErr PyVal
  | .constant v, _ => .ok v
  | .getAttr name, u => getattr_usage categorizer u name
  | .comparisonLe l r, u => do
    let a ← eval_ categorizer l u
    let b ← eval_ categorizer r u
    (py_le_val a b).map py_bool
  | .comparisonLt l r, u => do
    let a ← eval_ categorizer l u
    let b ← eval_ categorizer r u
    (py_lt_val a b).map py_bool
  | .comparisonEq l r, u => do
    let a ← eval_ categorizer l u
    let b ← eval_ categorizer r u
    return py_bool (py_eq_val a b)
  | .comparisonNe l r, u => do
    let a ← eval_ categorizer l u
    let b ← eval_ categorizer r u
    return py_bool (!(py_eq_val a b))
  | .comparisonGe l r, u => do
    let a ← eval_ categorizer l u
    let b ← eval_ categorizer r u
    (py_le_val b a).map py_bool
  | .comparisonGt l r, u => do
    let a ← eval_ categorizer l u
    let b ← eval_ categorizer r u
    (py_lt_val b a).map py_bool
  | .and_ l r, u => do
    let a ← eval_ categorizer l u
    if py_val_truthy a then eval_ categorizer r u else return py_bool false
  | .or_ l r, u => do
    let a ← eval_ categorizer l u
    if py_val_truthy a then return py_bool true else eval_ categorizer r u
  | .not_ e, u => do
    let a ← eval_ categorizer e u
    return py_bool (!(py_val_truthy a))

/-- `Query.__iter__` (`heap/query.py` lines 136-140) over a given
inventory: yield every usage whose filter evaluation is truthy.  An
exception raised by evaluation propagates out of the generator (the
records yielded before it stand, but the iteration aborts; the model
reports the error for the whole run). -/
def query_filter (categorizer : Usage → Category) (filter_ : Expression) :
    List Usage → Except PyErr (List Usage)
  | [] => .ok []
  | u :: rest => do
    let v ← eval_ categorizer filter_ u
    let tail ← query_filter categorizer filter_ rest
    return (if py_val_truthy v then u :: tail else tail)

/-- `do_query` (`heap/query.py` lines 147-149): an empty query string
selects everything via `Constant(True)`. -/
def empty_query_filter : Expression := .constant (py_bool true)

/-- A categorization oracle for concrete runs (stands in for
`categorize`, which needs the inferior process). -/
def sample_categorizer : Usage → Category := fun _ => ⟨"uncategorized", "", none⟩

/-- A concrete inventory record of 2048 bytes at 4096. -/
def sample_usage_big : Usage := ⟨4096, 2048, none, none, none, none⟩

/-- A concrete inventory record of 512 bytes at 8192. -/
def sample_usage_small : Usage := ⟨8192, 512, none, none, none, none⟩

/-- C8 (code bug, evaluated at the failing input): filtering by
`size >= 1024` and the empty (select-all) query behave as claimed, but
the claim's own examples `kind == "str" and size > 1024` and
`not domain="x"` do not intersect or complement anything: `GetAttr`
does `getattr(u, attrname)` and `Usage` has no attribute `kind` or
`domain` (only `start, size, category, level, hd, obj`), so evaluation
raises `AttributeError` and the query aborts instead of yielding the
claimed subset. -/
theorem query_eval_attribute_bug :
    query_filter sample_categorizer
        (.comparisonGe (.getAttr "size") (.constant (.int 1024)))
        [sample_usage_big, sample_usage_small]
      = .ok [sample_usage_big]
    ∧ query_filter sample_categorizer empty_query_filter
        [sample_usage_big, sample_usage_small]
      = .ok [sample_usage_big, sample_usage_small]
    ∧ query_filter sample_categorizer
        (.and_ (.comparisonEq (.getAttr "kind") (.constant (.str "str")))
               (.comparisonGt (.getAttr "size") (.constant (.int 1024))))
        [sample_usage_big, sample_usage_small]
      = .error (.attributeError "kind")
    ∧ query_filter sample_categorizer
        (.not_ (.comparisonEq (.getAttr "domain") (.constant (.str "x"))))
        [sample_usage_big, sample_usage_small]
      = .error (.attributeError "domain") :=
  ⟨rfl, rfl, rfl, rfl⟩

/- ===== heap/parser.py : grammar actions of the query language ===== -/

/-- The AST built by the grammar actions in `heap/parser.py`:
`p_expression_number` and `p_expression_string` pass the literal token
value through (a raw Python long/str), `p_expression_name` passes the
raw identifier string through, and the remaining productions build
`parser.Comparison`, `parser.And`, `parser.Or`, `parser.Not`. -/
inductive ParsedExpr where
  | num (n : Int)
  | str (s : String)
  | name (id : String)
  | comparison (lhs : ParsedExpr) (op : String) (rhs : ParsedExpr)
  | and_ (a b : ParsedExpr)
  | or_ (a b : ParsedExpr)
  | not_ (a : ParsedExpr)
deriving DecidableEq

/-- `parser.ParserError(input_, pos, value)`. -/
structure ParserError where
  input_ : String
  pos : Nat
  value : String
deriving DecidableEq

/-- `p_expression_name` (`heap/parser.py` lines 180-182): the action for
`expression : ID` is exactly `t[0] = t[1]` — the raw identifier is
passed through; there is no allow-list check and no error path. -/
def p_expression_name (tok : String) : Except ParserError ParsedExpr :=
  .ok (.name tok)

/-- `p_comparison` (`heap/parser.py` lines 159-161): build
`Comparison(t[1], t[2], t[3])` with the raw operator token. -/
def p_comparison (lhs : ParsedExpr) (op : String) (rhs : ParsedExpr) :
    Except ParserError ParsedExpr :=
  .ok (.comparison lhs op rhs)

/-- Evaluation (`parser.Expression._eval` and subclasses) of the parsed
AST against a usage.  Only `parser.Comparison` defines `_eval`; a raw
long, str or identifier has no `_eval` method, and neither do
`parser.And`, `parser.Or`, `parser.Not`, so invoking it raises
`AttributeError`; and even with evaluated operands,
`getattr(lhs, self.op)` looks up the raw token (e.g. `'>'`) on the
value, which is not a Python method name. -/
def parsed_eval : ParsedExpr → Usage → Except PyErr PyVal
  | .num _, _ => .error (.attributeError "_eval")
  | .str _, _ => .error (.attributeError "_eval")
  | .name _, _ => .error (.attributeError "_eval")
  | .and_ _ _, _ => .error (.attributeError "_eval")
  | .or_ _ _, _ => .error (.attributeError "_eval")
  | .not_ _, _ => .error (.attributeError "_eval")
  | .comparison lhs op rhs, u => do
    let _ ← parsed_eval lhs u
    let _ ← parsed_eval rhs u
    .error (.attributeError op)

/-- C9 (code bug, evaluated at the failing input): the grammar action for
bare identifiers accepts *any* identifier — it cannot raise the
unknown-attribute `ParserError` the claim (and the repo's selftest)
demand — so `NOT_AN_ATTRIBUTE > 42` parses successfully, and the failure
is deferred to evaluation time, which raises `AttributeError`. -/
theorem parser_accepts_unknown_attribute :
    (∀ s : String, p_expression_name s = .ok (.name s))
    ∧ p_comparison (.name "NOT_AN_ATTRIBUTE") ">" (.num 42)
        = .ok (.comparison (.name "NOT_AN_ATTRIBUTE") ">" (.num 42))
    ∧ (∀ u : Usage,
        parsed_eval (.comparison (.name "NOT_AN_ATTRIBUTE") ">" (.num 42)) u
          = .error (.attributeError "_eval")) :=
  ⟨fun _ => rfl, rfl, fun _ => rfl⟩
